import Mathlib

/-!
Verification of the paginated fuzzy device-name resolution core of the
repository: the pure match scorer `_fuzzy_match_score` and the paginated
resolver `find_device_by_name` from `endpoints/devices.py`, embedded
shallowly.  Python floats are modelled as rationals (all score arithmetic
is exact decimal arithmetic on 0, 0.3, 0.7, 0.9, 1.0 and small sums and
quotients of those, so no rounding behaviour is lost), the paginated
device-listing API is modelled as a function from (page, per_page) to a
response, and the `while True` scan loop is modelled with explicit fuel
(1000, matching the hard page ceiling of the source).  String lowering
and splitting are implemented on character lists with Python's ASCII
semantics so that every definition evaluates by kernel reduction.
-/

/-- Python's `str.lower()` (ASCII semantics): lower-case every character. -/
def pyLower (s : String) : String := String.mk (s.toList.map Char.toLower)

/-- Characters matched by the regex class `\w` (ASCII reading):
letters, digits and the underscore. -/
def isWordChar (c : Char) : Bool := c.isAlphanum || c = '_'

/-- Python's substring test `sub in s`: `sub` occurs contiguously in `s`.
Note `"" in s` is true, as in Python. -/
def pyIn (sub s : String) : Bool := decide (sub.toList <:+: s.toList)

/-- Python's `str.isdigit` (ASCII reading): non-empty and all digits. -/
def pyIsdigit (w : String) : Bool := !w.toList.isEmpty && w.toList.all Char.isDigit

/-- Python's `str.split(sep)` for a one-character separator, on character
lists: empty pieces are kept, and the empty string yields `[[]]`. -/
def splitChar (sep : Char) : List Char → List (List Char)
  | [] => [[]]
  | c :: rest =>
    if c = sep then [] :: splitChar sep rest
    else
      match splitChar sep rest with
      | h :: t => (c :: h) :: t
      | [] => [[c]]

/-- Python's `s.split('_')` used by the scorer's partial-match rule. -/
def pySplit (s : String) (sep : Char) : List String := (splitChar sep s.toList).map String.mk

/-- Helper for `reFindall`: scans the character list, accumulating the
current (reversed) run of matching characters in `cur`, and emits maximal
runs, exactly as `re.findall` with a one-class `+` pattern does. -/
def findallAux (p : Char → Bool) : List Char → List Char → List String
  | cur, [] => if cur = [] then [] else [String.mk cur.reverse]
  | cur, c :: rest =>
    if p c then findallAux p (c :: cur) rest
    else if cur = [] then findallAux p [] rest
    else String.mk cur.reverse :: findallAux p [] rest

/-- Model of `re.findall` for a single-character-class pattern with `+`:
the list of maximal runs of characters satisfying `p`, in order.
Used for `re.findall(r'\w+', s)` and `re.findall(r'\d+', s)`. -/
def reFindall (p : Char → Bool) (s : String) : List String := findallAux p [] s.toList

/-- The stop-word set `common_words` of `_fuzzy_match_score`
(`endpoints/devices.py` line 96). -/
def common_words : List String :=
  ["device", "in", "project", "the", "a", "an", "and", "or", "of", "for", "with"]

/-- The token list of a query: `re.findall(r'\w+', search_terms.lower())`
with stop words removed (`endpoints/devices.py` line 97). -/
def searchWords (search_terms : String) : List String :=
  (reFindall isWordChar (pyLower search_terms)).filter (fun word => !common_words.contains word)

/-- Per-token credit awarded by the scorer's `for word in search_words`
loop body (`endpoints/devices.py` lines 105-114): 1.0 for a substring of
the whole lower-cased name, else 0.7 for a partial match against an
underscore-delimited part, else 0.9 for a purely numeric token equal to
some maximal digit run of the name, else 0. -/
def tokenCredit (word name_lower : String) : ℚ :=
  if pyIn word name_lower then 1
  else if (pySplit name_lower '_').any (fun part => pyIn word part || pyIn part word) then 7/10
  else if pyIsdigit word ∧ word ∈ reFindall Char.isDigit name_lower then 9/10
  else 0

/-- The scorer `_fuzzy_match_score` (`endpoints/devices.py` lines 81-121).
`min(x, 1.0)` is written as an explicit conditional. -/
def fuzzy_match_score (search_terms device_name : String) : ℚ :=
  let search_lower := pyLower search_terms
  let name_lower := pyLower device_name
  let search_words := searchWords search_terms
  if search_words = [] then 0
  else
    let max_possible_score : ℚ := search_words.length
    let base_score : ℚ :=
      search_words.foldl (fun score word => score + tokenCredit word name_lower) 0
    let score : ℚ := if search_lower = name_lower then max_possible_score else base_score
    if 0 < max_possible_score then
      if score / max_possible_score ≤ 1 then score / max_possible_score else 1
    else 0

/-- A device record as consumed by the resolver: the four fields it reads
via `.get(...)`, each possibly absent. -/
structure Device where
  id : Option String
  name : Option String
  online : Option Bool
  last_heard : Option String
deriving DecidableEq

/-- One response of the device-listing API (`make_api_request` on
`/v1/devices`): an `error` key may be present, and the `devices` key
defaults to the empty list. -/
structure PageResponse where
  error : Option String
  devices : List Device
deriving DecidableEq

/-- The per-query best-match bookkeeping entry of `find_device_by_name`
(`endpoints/devices.py` lines 152-157). -/
structure MatchState where
  best_match : Option Device
  best_score : ℚ
  found : Bool
deriving DecidableEq

/-- Initial per-query state (`endpoints/devices.py` lines 153-157). -/
def initState : MatchState := { best_match := none, best_score := 0, found := false }

/-- The initial `search_results` mapping: every query starts at `initState`. -/
def initResults : String → MatchState := fun _ => initState

/-- The constant `min_score_threshold` (`endpoints/devices.py` line 161). -/
def min_score_threshold : ℚ := 3/10

/-- The body of the inner `for search_name in device_names` loop of the
scan (`endpoints/devices.py` lines 181-201), acting on one query's state:
skip if a perfect match was already found; else take an exact
case-insensitive name match at score 1.0; else score fuzzily and update
on strict improvement above the acceptance threshold. -/
def updateState (search_name : String) (device : Device) (st : MatchState) : MatchState :=
  if st.found ∧ st.best_score = 1 then st
  else if pyLower (device.name.getD "") = pyLower search_name then
    { best_match := some device, best_score := 1, found := true }
  else
    let score := fuzzy_match_score search_name (device.name.getD "")
    if st.best_score < score ∧ min_score_threshold ≤ score then
      { best_match := some device, best_score := score, found := true }
    else st

/-- Pointwise update of the `search_results` mapping at one query name. -/
def setResult (results : String → MatchState) (n : String) (st : MatchState) :
    String → MatchState :=
  fun q => if q = n then st else results q

/-- The `for device in devices: for search_name in device_names:` double
loop over one page (`endpoints/devices.py` lines 178-201). -/
def processPage (device_names : List String) (devices : List Device)
    (results : String → MatchState) : String → MatchState :=
  devices.foldl
    (fun res device =>
      device_names.foldl
        (fun res2 search_name =>
          setResult res2 search_name (updateState search_name device (res2 search_name)))
        res)
    results

/-- Outcome of the scan loop: the propagated error response if a page
fetch failed, the final `search_results` mapping, the final value of the
`page` counter, and the log of `(page, per_page)` pairs requested. -/
structure ScanResult where
  errorResp : Option PageResponse
  results : String → MatchState
  finalPage : Nat
  log : List (Nat × Nat)

/-- The `while True` scan loop of `find_device_by_name`
(`endpoints/devices.py` lines 163-208), with explicit fuel.  Each
iteration fetches `(page, per_page := 100)`, propagates an error response,
stops on an empty page, otherwise scores the page and advances, stopping
when the incremented page counter exceeds 1000. -/
def scanLoop (api : Nat → Nat → PageResponse) (device_names : List String) :
    Nat → Nat → (String → MatchState) → List (Nat × Nat) → ScanResult
  | 0, page, results, log => ⟨none, results, page, log⟩
  | fuel + 1, page, results, log =>
    let response := api page 100
    if response.error.isSome then ⟨some response, results, page, log ++ [(page, 100)]⟩
    else
      let devices := response.devices
      if devices = [] then ⟨none, results, page, log ++ [(page, 100)]⟩
      else
        let results2 := processPage device_names devices results
        if page + 1 > 1000 then ⟨none, results2, page + 1, log ++ [(page, 100)]⟩
        else scanLoop api device_names fuel (page + 1) results2 (log ++ [(page, 100)])

/-- The scan as run by `find_device_by_name`: from page 1 with fresh
state.  Fuel 1000 covers the hard page ceiling. -/
def scanOf (api : Nat → Nat → PageResponse) (device_names : List String) : ScanResult :=
  scanLoop api device_names 1000 1 initResults []

/-- The success dictionary built for a resolved query
(`endpoints/devices.py` lines 217-226 and 242-252). -/
structure SuccessRecord where
  device : Option Device
  node_id : Option String
  name : Option String
  online : Option Bool
  last_heard : Option String
  match_score : ℚ
  match_type : String
deriving DecidableEq

/-- Builds the success dictionary from a query's final state. -/
def mkSuccessRecord (result : MatchState) : SuccessRecord :=
  { device := result.best_match
    node_id := result.best_match.bind Device.id
    name := result.best_match.bind Device.name
    online := result.best_match.bind Device.online
    last_heard := result.best_match.bind Device.last_heard
    match_score := result.best_score
    match_type := if result.best_score = 1 then "exact" else "fuzzy" }

/-- The not-found dictionary for a single-query search
(`endpoints/devices.py` lines 228-232): the data carried by the error
message and fields. -/
structure NotFoundRecord where
  search_name : String
  searched_pages : Nat
  best_score : ℚ
deriving DecidableEq

/-- One entry of the combined `devices` list of a multi-query result:
either a found entry (lines 242-252) or a not-found entry (lines
254-259), each tagged with the originating query string. -/
inductive DeviceEntry where
  | found (search_name : String) (record : SuccessRecord)
  | notFound (search_name : String) (best_score : ℚ)
deriving DecidableEq

/-- The aggregate dictionary of a multi-query search
(`endpoints/devices.py` lines 261-268). -/
structure MultiRecord where
  success : Bool
  total_searched : Nat
  found_count : Nat
  not_found_count : Nat
  searched_pages : Nat
  devices : List DeviceEntry
deriving DecidableEq

/-- Overall result of `find_device_by_name`: a propagated error response,
a single-query success or not-found record, or a multi-query aggregate. -/
inductive FindResult where
  | errResp (resp : PageResponse)
  | success (r : SuccessRecord)
  | notFound (r : NotFoundRecord)
  | multi (r : MultiRecord)
deriving DecidableEq

/-- Single-query result shaping (`endpoints/devices.py` lines 211-232). -/
def shapeSingle (scan : ScanResult) (search_name : String) : FindResult :=
  let result := scan.results search_name
  if result.found ∧ min_score_threshold ≤ result.best_score then
    FindResult.success (mkSuccessRecord result)
  else
    FindResult.notFound
      { search_name := search_name
        searched_pages := scan.finalPage - 1
        best_score := result.best_score }

/-- Multi-query result shaping (`endpoints/devices.py` lines 233-268):
one pass over the query list appending to the found / not-found lists,
then the aggregate with the concatenated combined list. -/
def shapeMulti (scan : ScanResult) (device_names : List String) : FindResult :=
  let pair := device_names.foldl
    (fun (acc : List DeviceEntry × List DeviceEntry) search_name =>
      let result := scan.results search_name
      if result.found ∧ min_score_threshold ≤ result.best_score then
        (acc.1 ++ [DeviceEntry.found search_name (mkSuccessRecord result)], acc.2)
      else
        (acc.1, acc.2 ++ [DeviceEntry.notFound search_name result.best_score]))
    ([], [])
  let devices_found := pair.1
  let devices_not_found := pair.2
  FindResult.multi
    { success := decide (0 < devices_found.length)
      total_searched := device_names.length
      found_count := devices_found.length
      not_found_count := devices_not_found.length
      searched_pages := scan.finalPage - 1
      devices := devices_found ++ devices_not_found }

/-- The query list derived from the polymorphic input
(`endpoints/devices.py` lines 143-148). -/
def inputNames : String ⊕ List String → List String
  | Sum.inl s => [s]
  | Sum.inr l => l

/-- The resolver `find_device_by_name` (`endpoints/devices.py` lines 124-268), over an
abstract device-listing API. -/
def find_device_by_name (api : Nat → Nat → PageResponse)
    (device_name : String ⊕ List String) : FindResult :=
  let device_names := inputNames device_name
  let return_single := match device_name with
    | Sum.inl _ => true
    | Sum.inr _ => false
  let scan := scanOf api device_names
  match scan.errorResp with
  | some resp => FindResult.errResp resp
  | none =>
    if return_single then shapeSingle scan (device_names.headD "")
    else shapeMulti scan device_names

/-- The match-type label of a result, when it is a single-query success. -/
def FindResult.matchTypeOf : FindResult → Option String
  | FindResult.success r => some r.match_type
  | _ => none

/-- The pages-scanned count reported by a result, when it reports one. -/
def FindResult.searchedPagesOf : FindResult → Option Nat
  | FindResult.notFound r => some r.searched_pages
  | FindResult.multi r => some r.searched_pages
  | _ => none

/-- The per-query MatchState invariant: the recorded best score lies in
[0, 1] implicitly through the bound below, and `found` is set exactly
when the best score is positive and has met the acceptance threshold
(equivalently, by monotonicity, met it at least once). -/
def MatchInv (st : MatchState) : Prop :=
  st.best_score ≤ 1 ∧
    (st.found = true ↔ 0 < st.best_score ∧ min_score_threshold ≤ st.best_score)

instance (st : MatchState) : Decidable (MatchInv st) := by
  unfold MatchInv
  infer_instance

/-- The per-query acceptance criterion used by the result shaping:
`found` with best score at or above the acceptance threshold. -/
def acceptBool (f : String → MatchState) (n : String) : Bool :=
  decide ((f n).found = true ∧ min_score_threshold ≤ (f n).best_score)

/-- A query state that has locked in a perfect match. -/
def goodState (st : MatchState) : Prop := st.found = true ∧ st.best_score = 1

/-- Device set for the Scenario C run: one device named
"Guadalupe_Station_01" on page 1, then end of data. -/
def devGuadalupe : Device :=
  ⟨some "gid", some "Guadalupe_Station_01", some true, some "hb"⟩

/-- API for the Scenario C run. -/
def apiScenC : Nat → Nat → PageResponse := fun page _ =>
  if page = 1 then ⟨none, [devGuadalupe]⟩ else ⟨none, []⟩

/-- API for the Scenario F run: pages 1 and 2 succeed with one device
each, page 3 returns an error response. -/
def apiScenF : Nat → Nat → PageResponse := fun page _ =>
  if page ≤ 2 then ⟨none, [devGuadalupe]⟩ else ⟨some "transport failure", []⟩

/-- Device set and API used for the Scenario D / Scenario E runs: one
device named "LCCMR_47" on page 1, then end of data. -/
def devLCCMR : Device := ⟨some "id47", some "LCCMR_47", some true, some "hb"⟩

/-- API whose only device is `devLCCMR`, on page 1. -/
def apiLCCMR : Nat → Nat → PageResponse := fun page _ =>
  if page = 1 then ⟨none, [devLCCMR]⟩ else ⟨none, []⟩

/-- API that is out of data from the very first page. -/
def apiEmptyData : Nat → Nat → PageResponse := fun _ _ => ⟨none, []⟩

/-- Device whose literal name is the stop word "device". -/
def devStopWord : Device := ⟨some "idsw", some "device", some true, some "hb"⟩

/-- API whose only device is the one literally named "device". -/
def apiStopWord : Nat → Nat → PageResponse := fun page _ =>
  if page = 1 then ⟨none, [devStopWord]⟩ else ⟨none, []⟩

example : fuzzy_match_score "guadalupe" "Guadalupe_Station_01" = 1 := by with_unfolding_all decide
example : fuzzy_match_score "device 47 in lccmr project" "LCCMR_47" = 1 := by with_unfolding_all decide
example : fuzzy_match_score "lccmr 23" "LCCMR_Irrigation_23" = 1 := by with_unfolding_all decide
example : fuzzy_match_score "device" "device" = 0 := by with_unfolding_all decide
example : fuzzy_match_score "" "" = 0 := by with_unfolding_all decide
example : fuzzy_match_score "nonexistent_xyz" "LCCMR_47" = 0 := by with_unfolding_all decide
example : fuzzy_match_score "stationx 99" "guadalupe_station_01" = 7/20 := by with_unfolding_all decide

lemma tokenCredit_nonneg (word nl : String) : 0 ≤ tokenCredit word nl := by
  unfold tokenCredit
  split_ifs <;> norm_num

lemma credit_foldl_nonneg (nl : String) :
    ∀ (ws : List String) (a : ℚ), 0 ≤ a →
      0 ≤ ws.foldl (fun score word => score + tokenCredit word nl) a := by
  intro ws
  induction ws with
  | nil => intro a ha; simpa using ha
  | cons w ws ih =>
    intro a ha
    simp only [List.foldl_cons]
    exact ih _ (add_nonneg ha (tokenCredit_nonneg w nl))

lemma fuzzy_match_score_nonneg (q c : String) : 0 ≤ fuzzy_match_score q c := by
  have hb : (0:ℚ) ≤
      List.foldl (fun score word => score + tokenCredit word (pyLower c)) 0 (searchWords q) :=
    credit_foldl_nonneg _ _ _ (le_refl 0)
  have hl : (0:ℚ) ≤ ((searchWords q).length : ℚ) := Nat.cast_nonneg _
  simp only [fuzzy_match_score]
  split_ifs <;> first
    | exact le_refl 0
    | exact zero_le_one
    | exact div_nonneg hl hl
    | exact div_nonneg hb hl

lemma fuzzy_match_score_le_one (q c : String) : fuzzy_match_score q c ≤ 1 := by
  simp only [fuzzy_match_score]
  split_ifs <;> first
    | exact zero_le_one
    | assumption
    | exact le_refl 1

/-- C8: for every pair of input strings (query, candidate name), the Match
Scorer returns a value in the closed interval [0, 1]; being a pure
function of its two string arguments, it is deterministic — two
applications to the same pair of strings return the same value. -/
theorem c8_scorer_bounded_and_deterministic (q c : String) :
    (0 ≤ fuzzy_match_score q c ∧ fuzzy_match_score q c ≤ 1) ∧
      fuzzy_match_score q c = fuzzy_match_score q c :=
  ⟨⟨fuzzy_match_score_nonneg q c, fuzzy_match_score_le_one q c⟩, rfl⟩

/-- C1 (counterexample): the claim says `score(n, n) = 1.0` for every
candidate name `n`, including a name consisting only of stop words such
as `"device"`.  But the scorer's empty-token early return fires before
the exact-match bonus, so `score("device", "device") = 0`, not `1`. -/
theorem c1_counterexample_stop_word_self_score :
    fuzzy_match_score "device" "device" ≠ 1 := by
  with_unfolding_all decide

/-- C1 (amended): for candidate names whose token list is non-empty after
stop-word filtering, the scorer is `1.0` on case-insensitively identical
query/candidate pairs; when every token is a stop word (or the name is
empty) the empty-token early return yields `0.0` instead, before the
exact-match bonus is consulted. -/
theorem c1_score_self_eq_one_of_tokens (q c : String)
    (hlow : pyLower q = pyLower c) (htok : searchWords q ≠ []) :
    fuzzy_match_score q c = 1 := by
  have hlen : (0:ℚ) < ((searchWords q).length : ℚ) := by
    exact_mod_cast List.length_pos.mpr htok
  simp only [fuzzy_match_score]
  rw [if_neg htok, if_pos hlow, if_pos hlen, div_self (ne_of_gt hlen), if_pos le_rfl]

/-- C1 (witness): a concrete instance of the amended claim at the
case-insensitively identical pair ("LCCMR_47", "lccmr_47"). -/
theorem c1_score_self_eq_one_of_tokens_witness :
    (pyLower "LCCMR_47" = pyLower "lccmr_47" ∧ searchWords "LCCMR_47" ≠ []) ∧
      fuzzy_match_score "LCCMR_47" "lccmr_47" = 1 :=
  ⟨⟨by with_unfolding_all decide, by with_unfolding_all decide⟩,
    c1_score_self_eq_one_of_tokens "LCCMR_47" "lccmr_47"
      (by with_unfolding_all decide) (by with_unfolding_all decide)⟩

lemma mem_findallAux_isInfix (p : Char → Bool) :
    ∀ (cs cur : List Char) (w : String),
      w ∈ findallAux p cur cs → w.toList <:+: (cur.reverse ++ cs) := by
  intro cs
  induction cs with
  | nil =>
    intro cur w hmem
    unfold findallAux at hmem
    split at hmem
    · simp at hmem
    · rw [List.mem_singleton] at hmem
      subst hmem
      simpa using List.infix_rfl
  | cons c rest ih =>
    intro cur w hmem
    unfold findallAux at hmem
    by_cases hp : p c
    · rw [if_pos hp] at hmem
      simpa [List.append_assoc] using ih (c :: cur) w hmem
    · rw [if_neg hp] at hmem
      by_cases hcur : cur = []
      · rw [if_pos hcur] at hmem
        subst hcur
        obtain ⟨s, t, hst⟩ := ih [] w hmem
        simp only [List.reverse_nil, List.nil_append] at hst ⊢
        refine ⟨c :: s, t, ?_⟩
        simp only [List.cons_append]
        rw [← hst]
      · rw [if_neg hcur] at hmem
        rw [List.mem_cons] at hmem
        rcases hmem with hmem | hmem
        · subst hmem
          exact ⟨[], c :: rest, by simp⟩
        · obtain ⟨s, t, hst⟩ := ih [] w hmem
          simp only [List.reverse_nil, List.nil_append] at hst
          refine ⟨cur.reverse ++ c :: s, t, ?_⟩
          rw [← hst]
          simp [List.append_assoc]

lemma mem_reFindall_isInfix (p : Char → Bool) (s : String) (w : String)
    (h : w ∈ reFindall p s) : w.toList <:+: s.toList := by
  simpa using mem_findallAux_isInfix p s.toList [] w h

/-- C9: for a candidate name containing a standalone digit run `D` and a
query whose token list contains the token `D`, the per-token credit for
`D` is 0.9 unless `D` also occurs as a full substring of the lower-cased
candidate name, in which case it is 1.0.  (In fact any maximal digit run
of the name is in particular a substring of the name, so the substring
rule always fires and the credit is always 1.0; the 0.9 case of the
conditional is vacuous.) -/
theorem c9_numeric_token_credit (q cand D : String)
    (hq : D ∈ searchWords q)
    (hdig : pyIsdigit D = true)
    (hrun : D ∈ reFindall Char.isDigit (pyLower cand)) :
    tokenCredit D (pyLower cand) = if pyIn D (pyLower cand) then 1 else 9/10 := by
  have hinf : D.toList <:+: (pyLower cand).toList := mem_reFindall_isInfix _ _ _ hrun
  have hin : pyIn D (pyLower cand) = true := by
    simpa [pyIn] using hinf
  unfold tokenCredit
  rw [if_pos hin, if_pos hin]

/-- C9 (witness): concrete instance with query "lccmr 47", token "47" and
candidate name "LCCMR_47". -/
theorem c9_numeric_token_credit_witness :
    ("47" ∈ searchWords "lccmr 47" ∧ pyIsdigit "47" = true ∧
        "47" ∈ reFindall Char.isDigit (pyLower "LCCMR_47")) ∧
      tokenCredit "47" (pyLower "LCCMR_47") =
        if pyIn "47" (pyLower "LCCMR_47") then 1 else 9/10 :=
  ⟨⟨by with_unfolding_all decide, by with_unfolding_all decide, by with_unfolding_all decide⟩,
    c9_numeric_token_credit "lccmr 47" "LCCMR_47" "47"
      (by with_unfolding_all decide) (by with_unfolding_all decide)
      (by with_unfolding_all decide)⟩

/-- C2 (counterexample): the claim says the query "guadalupe" against the
device set containing only "Guadalupe_Station_01" resolves with
match-type label "fuzzy".  The code computes the label solely from the
final score (`"exact" if best_score == 1.0 else "fuzzy"`), and the fuzzy
score here is 1.0, so the label is "exact", not "fuzzy". -/
theorem c2_counterexample_label_not_fuzzy :
    FindResult.matchTypeOf (find_device_by_name apiScenC (Sum.inl "guadalupe")) ≠
      some "fuzzy" := by
  with_unfolding_all decide

/-- C2 (amended): the query "guadalupe" against the device set whose only
candidate is "Guadalupe_Station_01" resolves successfully with match
score 1.0, and the match-type label is "exact" — the label depends only
on the score being 1.0, not on whether the exact-equality check or the
fuzzy scorer produced it. -/
theorem c2_guadalupe_resolves_exact_label :
    find_device_by_name apiScenC (Sum.inl "guadalupe") =
      FindResult.success
        ⟨some devGuadalupe, some "gid", some "Guadalupe_Station_01", some true, some "hb",
          1, "exact"⟩ := by
  with_unfolding_all decide

lemma updateState_inv_mono (n : String) (d : Device) (st : MatchState) (h : MatchInv st) :
    MatchInv (updateState n d st) ∧ st.best_score ≤ (updateState n d st).best_score := by
  simp only [updateState]
  split_ifs with h1 h2 h3
  · exact ⟨h, le_refl _⟩
  · refine ⟨⟨le_refl 1, ?_⟩, h.1⟩
    constructor
    · intro _
      exact ⟨one_pos, by norm_num [min_score_threshold]⟩
    · intro _
      rfl
  · obtain ⟨hlt, hth⟩ := h3
    have hpos : 0 < fuzzy_match_score n (d.name.getD "") :=
      lt_of_lt_of_le (by norm_num [min_score_threshold]) hth
    refine ⟨⟨fuzzy_match_score_le_one _ _, ?_⟩, le_of_lt hlt⟩
    constructor
    · intro _
      exact ⟨hpos, hth⟩
    · intro _
      rfl
  · exact ⟨h, le_refl _⟩

lemma foldNames_inv_mono (device : Device) (q : String) :
    ∀ (names : List String) (res : String → MatchState), MatchInv (res q) →
      MatchInv
          ((names.foldl
            (fun res2 n => setResult res2 n (updateState n device (res2 n))) res) q) ∧
        (res q).best_score ≤
          ((names.foldl
            (fun res2 n => setResult res2 n (updateState n device (res2 n))) res) q).best_score := by
  intro names
  induction names with
  | nil => intro res h; exact ⟨h, le_refl _⟩
  | cons n rest ih =>
    intro res h
    simp only [List.foldl_cons]
    have hstep : MatchInv ((setResult res n (updateState n device (res n))) q) ∧
        (res q).best_score ≤ ((setResult res n (updateState n device (res n))) q).best_score := by
      unfold setResult
      by_cases hqn : q = n
      · subst hqn
        simp only [if_pos rfl]
        exact updateState_inv_mono q device (res q) h
      · simp only [if_neg hqn]
        exact ⟨h, le_refl _⟩
    obtain ⟨ih1, ih2⟩ := ih _ hstep.1
    exact ⟨ih1, le_trans hstep.2 ih2⟩

lemma processPage_inv_mono (names : List String) (q : String) :
    ∀ (devices : List Device) (res : String → MatchState), MatchInv (res q) →
      MatchInv ((processPage names devices res) q) ∧
        (res q).best_score ≤ ((processPage names devices res) q).best_score := by
  intro devices
  induction devices with
  | nil => intro res h; exact ⟨h, le_refl _⟩
  | cons d rest ih =>
    intro res h
    simp only [processPage, List.foldl_cons]
    have hstep := foldNames_inv_mono d q names res h
    obtain ⟨ih1, ih2⟩ := ih _ hstep.1
    exact ⟨ih1, le_trans hstep.2 ih2⟩

lemma scanLoop_inv_mono (api : Nat → Nat → PageResponse) (names : List String) (q : String) :
    ∀ (fuel page : Nat) (res : String → MatchState) (log : List (Nat × Nat)),
      MatchInv (res q) →
      MatchInv ((scanLoop api names fuel page res log).results q) ∧
        (res q).best_score ≤ ((scanLoop api names fuel page res log).results q).best_score := by
  intro fuel
  induction fuel with
  | zero => intro page res log h; exact ⟨h, le_refl _⟩
  | succ fuel ih =>
    intro page res log h
    simp only [scanLoop]
    split_ifs with h1 h2 h3
    · exact ⟨h, le_refl _⟩
    · exact ⟨h, le_refl _⟩
    · exact processPage_inv_mono names q _ res h
    · have hstep := processPage_inv_mono names q (api page 100).devices res h
      obtain ⟨ih1, ih2⟩ := ih (page + 1) _ (log ++ [(page, 100)]) hstep.1
      exact ⟨ih1, le_trans hstep.2 ih2⟩

/-- C4: for every query, across the whole page scan, the per-query
MatchState invariant holds after processing every device — starting from
any state satisfying it, any number of further pages (first conjunct) and
any single further device-processing step (second conjunct) preserve the
invariant (`found` is set exactly when the best score is positive and has
met the acceptance threshold 0.3) and never lower the recorded best
score. -/
theorem c4_scan_invariant_and_monotonicity
    (api : Nat → Nat → PageResponse) (names : List String)
    (fuel page : Nat) (res : String → MatchState) (log : List (Nat × Nat))
    (q : String) (d : Device) (st : MatchState)
    (hres : MatchInv (res q)) (hst : MatchInv st) :
    (MatchInv ((scanLoop api names fuel page res log).results q) ∧
      (res q).best_score ≤ ((scanLoop api names fuel page res log).results q).best_score) ∧
    (MatchInv (updateState q d st) ∧ st.best_score ≤ (updateState q d st).best_score) :=
  ⟨scanLoop_inv_mono api names q fuel page res log hres, updateState_inv_mono q d st hst⟩

/-- C4 (witness): the invariant theorem applied to the Scenario C API,
the fresh initial state and one concrete device step. -/
theorem c4_scan_invariant_and_monotonicity_witness :
    (MatchInv (initResults "guadalupe") ∧ MatchInv initState) ∧
    ((MatchInv ((scanLoop apiScenC ["guadalupe"] 1000 1 initResults []).results "guadalupe") ∧
        (initResults "guadalupe").best_score ≤
          ((scanLoop apiScenC ["guadalupe"] 1000 1 initResults []).results "guadalupe").best_score) ∧
      (MatchInv (updateState "guadalupe" devGuadalupe initState) ∧
        initState.best_score ≤ (updateState "guadalupe" devGuadalupe initState).best_score)) :=
  ⟨⟨by with_unfolding_all decide, by with_unfolding_all decide⟩,
    c4_scan_invariant_and_monotonicity apiScenC ["guadalupe"] 1000 1 initResults []
      "guadalupe" devGuadalupe initState
      (by with_unfolding_all decide) (by with_unfolding_all decide)⟩

lemma scanLoop_error_reach (api : Nat → Nat → PageResponse) (names : List String) (p : Nat)
    (hp2 : p ≤ 1000) (herr : (api p 100).error.isSome = true) :
    ∀ (fuel page : Nat) (res : String → MatchState) (log : List (Nat × Nat)),
      fuel + page = 1001 → 1 ≤ page → page ≤ p →
      (∀ k, page ≤ k → k < p → (api k 100).error = none ∧ (api k 100).devices ≠ []) →
      (scanLoop api names fuel page res log).errorResp = some (api p 100) ∧
        (scanLoop api names fuel page res log).log =
          log ++ (List.range' page (p + 1 - page)).map (fun k => (k, 100)) := by
  intro fuel
  induction fuel with
  | zero =>
    intro page res log hfp hpage hpl hok
    omega
  | succ fuel ih =>
    intro page res log hfp hpage hpl hok
    by_cases hep : page = p
    · subst hep
      simp only [scanLoop]
      rw [if_pos herr]
      refine ⟨rfl, ?_⟩
      have h1 : page + 1 - page = 1 := by omega
      simp [h1]
    · have hlt : page < p := lt_of_le_of_ne hpl hep
      obtain ⟨hne, hnemp⟩ := hok page (le_refl page) hlt
      simp only [scanLoop]
      rw [if_neg (by simp [hne] : ¬(api page 100).error.isSome = true)]
      rw [if_neg hnemp]
      rw [if_neg (by omega : ¬page + 1 > 1000)]
      have hrec := ih (page + 1) (processPage names (api page 100).devices res)
        (log ++ [(page, 100)]) (by omega) (by omega) (by omega)
        (fun k hk1 hk2 => hok k (by omega) hk2)
      refine ⟨hrec.1, ?_⟩
      rw [hrec.2]
      have hd : p + 1 - page = (p + 1 - (page + 1)) + 1 := by omega
      rw [hd, List.range'_succ]
      simp [List.append_assoc]

/-- C3: for every resolution (single- or multi-query), if some page fetch
returns an error response — the first p-1 pages succeed with non-empty
device lists and page p (within the 1000-page ceiling) carries an error —
then `find_device_by_name` returns exactly that response as the overall
result (no success record, no partial best-match data), and the request
log shows pages 1..p were fetched and nothing further. -/
theorem c3_error_aborts_resolution (api : Nat → Nat → PageResponse)
    (input : String ⊕ List String) (p : Nat) (hp1 : 1 ≤ p) (hp2 : p ≤ 1000)
    (hok : ∀ k, 1 ≤ k → k < p → (api k 100).error = none ∧ (api k 100).devices ≠ [])
    (herr : (api p 100).error.isSome = true) :
    find_device_by_name api input = FindResult.errResp (api p 100) ∧
      (scanOf api (inputNames input)).log =
        (List.range' 1 p).map (fun k => (k, 100)) := by
  have hscan := scanLoop_error_reach api (inputNames input) p hp2 herr 1000 1
    initResults [] (by omega) (le_refl 1) hp1 (fun k hk1 hk2 => hok k hk1 hk2)
  constructor
  · simp only [find_device_by_name, scanOf]
    rw [hscan.1]
  · simp only [scanOf]
    rw [hscan.2]
    simp

/-- C3 (witness): Scenario F — the error on page 3 is returned verbatim
even though pages 1 and 2 contained a perfect match for the query, and
exactly pages 1, 2, 3 were fetched. -/
theorem c3_error_aborts_resolution_witness :
    (apiScenF 3 100).error.isSome = true ∧
      (find_device_by_name apiScenF (Sum.inl "guadalupe") =
          FindResult.errResp (apiScenF 3 100) ∧
        (scanOf apiScenF ["guadalupe"]).log = (List.range' 1 3).map (fun k => (k, 100))) :=
  ⟨by with_unfolding_all decide,
    c3_error_aborts_resolution apiScenF (Sum.inl "guadalupe") 3 (by omega) (by omega)
      (by
        intro k hk1 hk2
        have hk : k ≤ 2 := by omega
        refine ⟨?_, ?_⟩ <;> simp [apiScenF, hk])
      (by with_unfolding_all decide)⟩

lemma scanLoop_log_shape (api : Nat → Nat → PageResponse) (names : List String) :
    ∀ (fuel page : Nat) (res : String → MatchState) (log : List (Nat × Nat)),
      1 ≤ page → page ≤ 1000 →
      log = (List.range' 1 (page - 1)).map (fun k => (k, 100)) →
      (scanLoop api names fuel page res log).log =
          (List.range' 1 (scanLoop api names fuel page res log).log.length).map
            (fun k => (k, 100)) ∧
        (scanLoop api names fuel page res log).log.length ≤ 1000 := by
  intro fuel
  induction fuel with
  | zero =>
    intro page res log h1 h2 hlog
    refine ⟨?_, ?_⟩ <;> simp [scanLoop, hlog] <;> omega
  | succ fuel ih =>
    intro page res log h1 h2 hlog
    have hconc : List.range' 1 page = List.range' 1 (page - 1) ++ [page] := by
      have h3 : page = (page - 1) + 1 := by omega
      have h4 : 1 + 1 * (page - 1) = page := by omega
      conv_lhs => rw [h3]
      rw [List.range'_concat, h4]
    have hstep : log ++ [(page, 100)] = (List.range' 1 page).map (fun k => (k, 100)) := by
      rw [hlog, hconc, List.map_append]
      simp
    simp only [scanLoop]
    split_ifs with he hd hc
    · refine ⟨?_, ?_⟩ <;> simp [hstep] <;> omega
    · refine ⟨?_, ?_⟩ <;> simp [hstep] <;> omega
    · refine ⟨?_, ?_⟩ <;> simp [hstep] <;> omega
    · exact ih (page + 1) _ _ (by omega) (by omega) (by simpa using hstep)

lemma scanLoop_fuel_irrel (api : Nat → Nat → PageResponse) (names : List String) :
    ∀ (f1 f2 page : Nat) (res : String → MatchState) (log : List (Nat × Nat)),
      1 ≤ page → page ≤ 1000 → 1001 ≤ f1 + page → 1001 ≤ f2 + page →
      scanLoop api names f1 page res log = scanLoop api names f2 page res log := by
  intro f1
  induction f1 with
  | zero =>
    intro f2 page res log h1 h2 h3 h4
    omega
  | succ f1 ih =>
    intro f2 page res log h1 h2 h3 h4
    cases f2 with
    | zero => omega
    | succ f2 =>
      simp only [scanLoop]
      split_ifs with he hd hc
      · rfl
      · rfl
      · rfl
      · exact ih f2 (page + 1) _ _ (by omega) (by omega) (by omega) (by omega)

/-- C5: for every sequence of API responses, the scan of
`find_device_by_name` fetches pages strictly in increasing order starting
at page 1 with per_page 100 (the request log is exactly
`[(1,100), (2,100), ...]`), fetches at most 1000 pages, and terminates:
any fuel bound of at least 1000 yields the same outcome as the canonical
1000-fuel run, so the `while True` loop never needs more than 1000
iterations. -/
theorem c5_scan_pagination_and_termination (api : Nat → Nat → PageResponse)
    (names : List String) (fuel : Nat) (hfuel : 1000 ≤ fuel) :
    ((scanOf api names).log =
        (List.range' 1 (scanOf api names).log.length).map (fun k => (k, 100)) ∧
      (scanOf api names).log.length ≤ 1000) ∧
    scanLoop api names fuel 1 initResults [] = scanOf api names :=
  ⟨scanLoop_log_shape api names 1000 1 initResults [] (by omega) (by omega) (by simp),
    scanLoop_fuel_irrel api names fuel 1000 1 initResults [] (by omega) (by omega)
      (by omega) (by omega)⟩

/-- C5 (witness): the pagination theorem at the Scenario C API with a
larger fuel bound. -/
theorem c5_scan_pagination_and_termination_witness :
    (1000 ≤ 1005) ∧
    (((scanOf apiScenC ["guadalupe"]).log =
        (List.range' 1 (scanOf apiScenC ["guadalupe"]).log.length).map (fun k => (k, 100)) ∧
      (scanOf apiScenC ["guadalupe"]).log.length ≤ 1000) ∧
    scanLoop apiScenC ["guadalupe"] 1005 1 initResults [] = scanOf apiScenC ["guadalupe"]) :=
  ⟨by omega, c5_scan_pagination_and_termination apiScenC ["guadalupe"] 1005 (by omega)⟩

lemma scanLoop_len_final (api : Nat → Nat → PageResponse) (names : List String) :
    ∀ (fuel page : Nat) (res : String → MatchState) (log : List (Nat × Nat)),
      fuel + page = 1001 → 1 ≤ page → log.length = page - 1 →
      (scanLoop api names fuel page res log).errorResp = none →
      (scanLoop api names fuel page res log).finalPage ≤ 1000 →
      (scanLoop api names fuel page res log).log.length =
        (scanLoop api names fuel page res log).finalPage := by
  intro fuel
  induction fuel with
  | zero =>
    intro page res log hfp h1 h3 h4 h5
    simp only [scanLoop] at h5
    omega
  | succ fuel ih =>
    intro page res log hfp h1 h3 h4 h5
    by_cases he : (api page 100).error.isSome = true
    · simp [scanLoop, if_pos he] at h4
    · by_cases hd : (api page 100).devices = []
      · simp only [scanLoop, if_neg he, if_pos hd]
        simp [h3]
        omega
      · by_cases hc : page + 1 > 1000
        · simp only [scanLoop, if_neg he, if_neg hd, if_pos hc] at h5
          omega
        · simp only [scanLoop, if_neg he, if_neg hd, if_neg hc] at h4 h5 ⊢
          exact ih (page + 1) _ _ (by omega) (by omega) (by simp [h3]; omega) h4 h5

/-- C6 (counterexample): the claim says the pages-scanned count of a
not-found result equals the number of pages actually fetched.  Against an
API whose first page is already empty, one page is fetched (the request
log has length 1) but the not-found record reports `searched_pages = 0`. -/
theorem c6_counterexample_pages_scanned_undercount :
    FindResult.searchedPagesOf (find_device_by_name apiEmptyData (Sum.inl "nonexistent_xyz")) ≠
      some (scanOf apiEmptyData ["nonexistent_xyz"]).log.length := by
  with_unfolding_all decide

/-- C6 (amended): for a single-query resolution that completes the scan
without an accepted match, terminating on an empty page (final page
counter within the 1000 ceiling), the result is a not-found record that
reports the best score observed and a pages-scanned count equal to the
number of pages fetched MINUS ONE — the terminating empty fetch is not
counted (the log length equals the final page counter, and the record
reports final page counter minus one). -/
theorem c6_not_found_record_shape (api : Nat → Nat → PageResponse) (q : String)
    (hnoerr : (scanOf api [q]).errorResp = none)
    (hpage : (scanOf api [q]).finalPage ≤ 1000)
    (hnf : ¬(((scanOf api [q]).results q).found = true ∧
        min_score_threshold ≤ ((scanOf api [q]).results q).best_score)) :
    find_device_by_name api (Sum.inl q) =
      FindResult.notFound
        ⟨q, (scanOf api [q]).log.length - 1, ((scanOf api [q]).results q).best_score⟩ ∧
      (scanOf api [q]).log.length = (scanOf api [q]).finalPage := by
  have hlen := scanLoop_len_final api [q] 1000 1 initResults [] (by omega) (by omega)
    (by simp) hnoerr hpage
  refine ⟨?_, hlen⟩
  simp only [find_device_by_name, inputNames]
  rw [hnoerr]
  simp only [List.headD_cons, shapeSingle, if_neg hnf]
  rw [show ((scanOf api [q]).log.length : Nat) = (scanOf api [q]).finalPage from hlen]
  simp

/-- C6 (witness): the amended claim at the Scenario D run — the query
"nonexistent_xyz" scores 0 against "LCCMR_47", two pages are fetched
(page 1 with data, page 2 empty), and the not-found record reports one
page scanned. -/
theorem c6_not_found_record_shape_witness :
    ((scanOf apiLCCMR ["nonexistent_xyz"]).errorResp = none ∧
      (scanOf apiLCCMR ["nonexistent_xyz"]).finalPage ≤ 1000 ∧
      ¬(((scanOf apiLCCMR ["nonexistent_xyz"]).results "nonexistent_xyz").found = true ∧
        min_score_threshold ≤
          ((scanOf apiLCCMR ["nonexistent_xyz"]).results "nonexistent_xyz").best_score)) ∧
    (find_device_by_name apiLCCMR (Sum.inl "nonexistent_xyz") =
        FindResult.notFound
          ⟨"nonexistent_xyz", (scanOf apiLCCMR ["nonexistent_xyz"]).log.length - 1,
            ((scanOf apiLCCMR ["nonexistent_xyz"]).results "nonexistent_xyz").best_score⟩ ∧
      (scanOf apiLCCMR ["nonexistent_xyz"]).log.length =
        (scanOf apiLCCMR ["nonexistent_xyz"]).finalPage) :=
  ⟨⟨by with_unfolding_all decide, by with_unfolding_all decide, by with_unfolding_all decide⟩,
    c6_not_found_record_shape apiLCCMR "nonexistent_xyz"
      (by with_unfolding_all decide) (by with_unfolding_all decide)
      (by with_unfolding_all decide)⟩

lemma filter_length_partition (p : α → Bool) :
    ∀ l : List α, (l.filter p).length + (l.filter (fun a => !p a)).length = l.length := by
  intro l
  induction l with
  | nil => simp
  | cons x xs ih =>
    cases h : p x <;> simp [List.filter_cons, h] <;> omega

lemma multi_foldl_char (f : String → MatchState) :
    ∀ (names : List String) (a b : List DeviceEntry),
      (names.foldl
        (fun (acc : List DeviceEntry × List DeviceEntry) search_name =>
          if (f search_name).found ∧ min_score_threshold ≤ (f search_name).best_score then
            (acc.1 ++ [DeviceEntry.found search_name (mkSuccessRecord (f search_name))], acc.2)
          else
            (acc.1, acc.2 ++ [DeviceEntry.notFound search_name (f search_name).best_score]))
        (a, b)) =
      (a ++ (names.filter (acceptBool f)).map
          (fun n => DeviceEntry.found n (mkSuccessRecord (f n))),
       b ++ (names.filter (fun n => !acceptBool f n)).map
          (fun n => DeviceEntry.notFound n (f n).best_score)) := by
  intro names
  induction names with
  | nil => intro a b; simp
  | cons n rest ih =>
    intro a b
    simp only [List.foldl_cons]
    by_cases h : (f n).found = true ∧ min_score_threshold ≤ (f n).best_score
    · rw [if_pos h, ih]
      have hb : acceptBool f n = true := by simp [acceptBool, h]
      simp [List.filter_cons, hb, List.append_assoc]
    · rw [if_neg h, ih]
      have hb : acceptBool f n = false := by
        simp only [acceptBool, decide_eq_false_iff_not]
        exact h
      simp [List.filter_cons, hb, List.append_assoc]

/-- C7: for every multi-query input whose scan completes without an API
error, the aggregate result reports `total_searched` equal to the number
of input queries, found and not-found counts summing to it, and a
combined devices list that is exactly the found entries (in query order,
each tagged with its originating query) followed by the not-found
entries (likewise tagged). -/
theorem c7_multi_query_aggregate (api : Nat → Nat → PageResponse) (names : List String)
    (hnoerr : (scanOf api names).errorResp = none) :
    find_device_by_name api (Sum.inr names) =
      FindResult.multi
        { success := decide (0 < (names.filter (acceptBool (scanOf api names).results)).length)
          total_searched := names.length
          found_count := (names.filter (acceptBool (scanOf api names).results)).length
          not_found_count :=
            (names.filter (fun n => !acceptBool (scanOf api names).results n)).length
          searched_pages := (scanOf api names).finalPage - 1
          devices :=
            (names.filter (acceptBool (scanOf api names).results)).map
              (fun n => DeviceEntry.found n (mkSuccessRecord ((scanOf api names).results n))) ++
            (names.filter (fun n => !acceptBool (scanOf api names).results n)).map
              (fun n => DeviceEntry.notFound n ((scanOf api names).results n).best_score) } ∧
      (names.filter (acceptBool (scanOf api names).results)).length +
        (names.filter (fun n => !acceptBool (scanOf api names).results n)).length =
        names.length := by
  refine ⟨?_, filter_length_partition _ names⟩
  simp only [find_device_by_name, inputNames]
  rw [hnoerr]
  simp only [shapeMulti]
  rw [multi_foldl_char (scanOf api names).results names [] []]
  simp [List.length_map]

/-- C7 (witness): Scenario E — queries ["LCCMR_47", "totally_missing"]
against a device set containing only "LCCMR_47" produce an aggregate with
found_count 1, not_found_count 1, total 2, and the found entry (tagged
"LCCMR_47") before the not-found entry (tagged "totally_missing"). -/
theorem c7_multi_query_aggregate_witness :
    (scanOf apiLCCMR ["LCCMR_47", "totally_missing"]).errorResp = none ∧
      find_device_by_name apiLCCMR (Sum.inr ["LCCMR_47", "totally_missing"]) =
        FindResult.multi
          ⟨true, 2, 1, 1, 1,
            [DeviceEntry.found "LCCMR_47"
               ⟨some devLCCMR, some "id47", some "LCCMR_47", some true, some "hb", 1, "exact"⟩,
             DeviceEntry.notFound "totally_missing" 0]⟩ :=
  ⟨by with_unfolding_all decide,
    (c7_multi_query_aggregate apiLCCMR ["LCCMR_47", "totally_missing"]
        (by with_unfolding_all decide)).1.trans (by with_unfolding_all decide)⟩

lemma updateState_absorb (n : String) (d : Device) (st : MatchState) (h : goodState st) :
    updateState n d st = st := by
  simp only [updateState]
  rw [if_pos ⟨h.1, h.2⟩]

lemma updateState_hit (q : String) (d : Device) (st : MatchState)
    (hname : pyLower (d.name.getD "") = pyLower q) :
    goodState (updateState q d st) := by
  simp only [updateState]
  split_ifs with h1
  · exact ⟨h1.1, h1.2⟩
  · exact ⟨rfl, rfl⟩

lemma foldNames_good_preserve (device : Device) (q : String) :
    ∀ (names : List String) (res : String → MatchState), goodState (res q) →
      goodState
        ((names.foldl
          (fun res2 n => setResult res2 n (updateState n device (res2 n))) res) q) := by
  intro names
  induction names with
  | nil => intro res h; exact h
  | cons n rest ih =>
    intro res h
    simp only [List.foldl_cons]
    apply ih
    unfold setResult
    by_cases hqn : q = n
    · subst hqn
      simp only [if_pos rfl]
      rw [updateState_absorb q device (res q) h]
      exact h
    · simp only [if_neg hqn]
      exact h

lemma foldNames_good_hit (device : Device) (q : String)
    (hname : pyLower (device.name.getD "") = pyLower q) :
    ∀ (names : List String) (res : String → MatchState), q ∈ names →
      goodState
        ((names.foldl
          (fun res2 n => setResult res2 n (updateState n device (res2 n))) res) q) := by
  intro names
  induction names with
  | nil => intro res h; simp at h
  | cons n rest ih =>
    intro res hmem
    simp only [List.foldl_cons]
    by_cases hqn : q = n
    · subst hqn
      apply foldNames_good_preserve
      unfold setResult
      simp only [if_pos rfl]
      exact updateState_hit q device (res q) hname
    · rcases List.mem_cons.mp hmem with hq | hq
      · exact absurd hq hqn
      · exact ih _ hq

lemma processPage_good_preserve (names : List String) (q : String) :
    ∀ (devices : List Device) (res : String → MatchState), goodState (res q) →
      goodState ((processPage names devices res) q) := by
  intro devices
  induction devices with
  | nil => intro res h; exact h
  | cons d rest ih =>
    intro res h
    simp only [processPage, List.foldl_cons] at ih ⊢
    exact ih _ (foldNames_good_preserve d q names res h)

lemma processPage_good_hit (names : List String) (q : String) (d : Device)
    (hname : pyLower (d.name.getD "") = pyLower q) (hq : q ∈ names) :
    ∀ (devices : List Device) (res : String → MatchState), d ∈ devices →
      goodState ((processPage names devices res) q) := by
  intro devices
  induction devices with
  | nil => intro res h; simp at h
  | cons dv rest ih =>
    intro res hmem
    simp only [processPage, List.foldl_cons] at ih ⊢
    rcases List.mem_cons.mp hmem with hdv | hdv
    · subst hdv
      have hgood := foldNames_good_hit d q hname names res hq
      exact processPage_good_preserve names q rest _ hgood
    · exact ih _ hdv

lemma scanLoop_good_preserve (api : Nat → Nat → PageResponse) (names : List String)
    (q : String) :
    ∀ (fuel page : Nat) (res : String → MatchState) (log : List (Nat × Nat)),
      goodState (res q) → goodState ((scanLoop api names fuel page res log).results q) := by
  intro fuel
  induction fuel with
  | zero => intro page res log h; exact h
  | succ fuel ih =>
    intro page res log h
    simp only [scanLoop]
    split_ifs with h1 h2 h3
    · exact h
    · exact h
    · exact processPage_good_preserve names q _ res h
    · exact ih (page + 1) _ _ (processPage_good_preserve names q _ res h)

lemma scanLoop_good_reach (api : Nat → Nat → PageResponse) (names : List String)
    (q : String) (p : Nat) (d : Device)
    (hp2 : p ≤ 1000) (hperr : (api p 100).error = none) (hd : d ∈ (api p 100).devices)
    (hname : pyLower (d.name.getD "") = pyLower q) (hq : q ∈ names) :
    ∀ (fuel page : Nat) (res : String → MatchState) (log : List (Nat × Nat)),
      fuel + page = 1001 → 1 ≤ page → page ≤ p →
      (∀ k, page ≤ k → k < p → (api k 100).error = none ∧ (api k 100).devices ≠ []) →
      goodState ((scanLoop api names fuel page res log).results q) := by
  intro fuel
  induction fuel with
  | zero =>
    intro page res log hfp h1 hpl hok
    omega
  | succ fuel ih =>
    intro page res log hfp h1 hpl hok
    by_cases hep : page = p
    · subst hep
      simp only [scanLoop]
      rw [if_neg (by simp [hperr] : ¬(api page 100).error.isSome = true)]
      rw [if_neg (List.ne_nil_of_mem hd)]
      split_ifs with hc
      · exact processPage_good_hit names q d hname hq _ res hd
      · exact scanLoop_good_preserve api names q fuel (page + 1) _ _
          (processPage_good_hit names q d hname hq _ res hd)
    · have hlt : page < p := lt_of_le_of_ne hpl hep
      obtain ⟨hne, hnemp⟩ := hok page (le_refl page) hlt
      simp only [scanLoop]
      rw [if_neg (by simp [hne] : ¬(api page 100).error.isSome = true)]
      rw [if_neg hnemp]
      rw [if_neg (by omega : ¬page + 1 > 1000)]
      exact ih (page + 1) _ _ (by omega) (by omega) (by omega)
        (fun k hk1 hk2 => hok k (by omega) hk2)

/-- C10: for every query whose lower-casing equals the lower-cased name
of some device in a reachable page of the scan, the resolver records
best score 1.0 and `found`, and — when the whole scan completes without
an API error — returns a success record with match score 1.0 and
match-type "exact".  This holds for every such query, in particular for
queries made entirely of stop words (for which the Match Scorer alone
returns 0.0): the exact-equality check at lines 186-193 runs before and
independently of the scorer. -/
theorem c10_exact_equality_bypasses_scorer (api : Nat → Nat → PageResponse)
    (q : String) (p : Nat) (d : Device)
    (hp1 : 1 ≤ p) (hp2 : p ≤ 1000)
    (hok : ∀ k, 1 ≤ k → k < p → (api k 100).error = none ∧ (api k 100).devices ≠ [])
    (hperr : (api p 100).error = none)
    (hd : d ∈ (api p 100).devices)
    (hname : pyLower (d.name.getD "") = pyLower q)
    (hnoerr : (scanOf api [q]).errorResp = none) :
    ((scanOf api [q]).results q).found = true ∧
      ((scanOf api [q]).results q).best_score = 1 ∧
      find_device_by_name api (Sum.inl q) =
        FindResult.success (mkSuccessRecord ((scanOf api [q]).results q)) ∧
      (mkSuccessRecord ((scanOf api [q]).results q)).match_score = 1 ∧
      (mkSuccessRecord ((scanOf api [q]).results q)).match_type = "exact" := by
  have hgood : goodState ((scanOf api [q]).results q) :=
    scanLoop_good_reach api [q] q p d hp2 hperr hd hname (by simp) 1000 1 initResults []
      (by omega) (by omega) hp1 hok
  obtain ⟨hfound, hone⟩ := hgood
  refine ⟨hfound, hone, ?_, ?_, ?_⟩
  · simp only [find_device_by_name, inputNames]
    rw [hnoerr]
    simp only [List.headD_cons, shapeSingle]
    have hcond : ((scanOf api [q]).results q).found = true ∧
        min_score_threshold ≤ ((scanOf api [q]).results q).best_score := by
      refine ⟨hfound, ?_⟩
      rw [hone]
      norm_num [min_score_threshold]
    rw [if_pos hcond]
    simp
  · simp [mkSuccessRecord, hone]
  · simp [mkSuccessRecord, hone]

/-- C10 (witness): the stop-word query "device" against a device
literally named "device" — the Match Scorer alone gives 0.0 for this very
pair, yet the resolver reports a success with score 1.0 and label
"exact". -/
theorem c10_exact_equality_bypasses_scorer_witness :
    (pyLower (devStopWord.name.getD "") = pyLower "device" ∧
      fuzzy_match_score "device" (devStopWord.name.getD "") = 0) ∧
      (((scanOf apiStopWord ["device"]).results "device").found = true ∧
        ((scanOf apiStopWord ["device"]).results "device").best_score = 1 ∧
        find_device_by_name apiStopWord (Sum.inl "device") =
          FindResult.success (mkSuccessRecord ((scanOf apiStopWord ["device"]).results "device")) ∧
        (mkSuccessRecord ((scanOf apiStopWord ["device"]).results "device")).match_score = 1 ∧
        (mkSuccessRecord ((scanOf apiStopWord ["device"]).results "device")).match_type =
          "exact") :=
  ⟨⟨by with_unfolding_all decide, by with_unfolding_all decide⟩,
    c10_exact_equality_bypasses_scorer apiStopWord "device" 1 devStopWord (by omega) (by omega)
      (by
        intro k hk1 hk2
        omega)
      (by with_unfolding_all decide) (by with_unfolding_all decide)
      (by with_unfolding_all decide) (by with_unfolding_all decide)⟩
